import Mathlib

/-!
Shallow embedding of the node-execution core of a streaming pipeline engine
(`node.go`): nodes connected by flow-controlled edges, node lifecycle
(start / stop / Err), graph linking (`addChild` / `linkChild`), the DOT
exporter (`edot`), per-group statistics (`nodeStatsByGroup`), and the
running-maximum metric (`MaxDuration`).

Counters are Go `int64` values; they are modelled as `Int`.  They only ever
grow by one per processed record, so two's-complement wraparound is not
reachable and plain integer arithmetic is faithful.
-/

set_option autoImplicit false

/-- The declared stream type of a conduit (`pipeline.EdgeType`, a Go `int`).
`stream` and `batch` are the shapes the conduit constructor recognises;
`unknown` stands for any other `int` value of the type, which the
constructor rejects (the `edge == nil` check in `node.addChild`). -/
inductive EdgeType where
  | stream
  | batch
  | unknown
deriving DecidableEq, Repr

/-- Per-group accounting retained by a conduit: running collected/emitted
counts plus the most recently observed tag set and dimension list
(spec section 4.3: `readGroupStats` hands `(group, collected, emitted,
lastTags, lastDimensions)` to its callback). -/
structure GroupInfo where
  collected : Int
  emitted : Int
  tags : List (String × String)
  dims : List String
deriving DecidableEq, Repr

/-- A conduit (`Edge`): fixed stream type, total collected and emitted
counters, per-group statistics keyed by `GroupID` (modelled as `String`),
and closed/aborted flags.  The conduit implementation lives outside the
source under scrutiny; the counters and `readGroupStats` shape follow the
spec (section 4.3). -/
structure Edge where
  edgeType : EdgeType
  collected : Int
  emitted : Int
  groups : List (String × GroupInfo)
  closed : Bool
  aborted : Bool
deriving DecidableEq, Repr

/-- Go's `Edge.collectedCount`: total number of records the conduit has
collected (written into it). -/
def Edge.collectedCount (e : Edge) : Int := e.collected

/-- Go's `Edge.emittedCount`: total number of records the conduit has emitted
(read out of it). -/
def Edge.emittedCount (e : Edge) : Int := e.emitted

/-- Modelled from the spec: the conduit constructor `newEdge` (its file is
not part of the source under scrutiny).  It builds a fresh conduit of the
requested stream type; per `node.addChild` in the source it can fail
(return `none`, Go `nil`) when the type is not one it recognises — the
"unknown edge type" error path.  The task name, endpoint names, buffer
size and log service it also receives do not affect any property proved
here and are omitted. -/
def newEdge (t : EdgeType) : Option Edge :=
  match t with
  | .stream => some { edgeType := .stream, collected := 0, emitted := 0,
                      groups := [], closed := false, aborted := false }
  | .batch => some { edgeType := .batch, collected := 0, emitted := 0,
                     groups := [], closed := false, aborted := false }
  | .unknown => none

/-- The state of a `node` relevant to linking, statistics and rendering:
its name, declared output (`Provides`) and input (`Wants`) stream types,
parent/child name lists, input (`ins`) and output (`outs`) conduits, and
the rendered key/value pairs of its live statistics map. -/
structure NodeState where
  name : String
  provides : EdgeType
  wants : EdgeType
  parents : List String
  children : List String
  ins : List Edge
  outs : List Edge
  stats : List (String × String)
deriving DecidableEq, Repr

/-- Go's `node.collectedCount`: a running total over the node's input conduits,
`count += in.emittedCount()` for each input, starting from zero. -/
def collectedCount (n : NodeState) : Int :=
  n.ins.foldl (fun count i => count + i.emittedCount) 0

/-! ## MaxDuration (running-maximum metric)

`MaxDuration` stores one `int64`.  `Set` is a compare-and-swap retry loop;
each successful `Set(value)` is equivalent to the atomic update
`d := if next > d then next else d` with `next = int64(value)`, and the
lock-free loop serialises concurrent calls into some sequence of such
updates.  The model takes `next` directly as an `Int`. -/

/-- One (serialised) `MaxDuration.Set` call: the stored value changes only
when the incoming value exceeds it. -/
def MaxDuration.set (d : Int) (next : Int) : Int :=
  if next > d then next else d

/-- Go's `MaxDuration.Int`: an atomic load of the stored value. -/
def MaxDuration.int (d : Int) : Int := d

/-- The stored value after a sequence of `Set` calls applied to a freshly
created metric (`MaxDuration{}` zero value, stored value 0). -/
def MaxDuration.runSets (vs : List Int) : Int :=
  vs.foldl MaxDuration.set 0

/-! ## Graph linking (`node.addChild`, `node.linkChild`)

Go nodes are mutable heap objects; the model passes both endpoint states
explicitly and returns their updated values, so a mutation that happens
before an error return stays visible, exactly as through a Go pointer. -/

/-- The two failure modes of `addChild`: the `cannot add child mismatched
edges` error, and the `unknown edge type` error when `newEdge` returns
`nil`. -/
inductive LinkError where
  | mismatch (provides wants : EdgeType)
  | unknownEdgeType (t : EdgeType)
deriving DecidableEq, Repr

/-- Go's `node.addChild(c)`: fail fast when `n.Provides() != c.Wants()`;
otherwise append `c` to `n.children`, build the conduit with `newEdge`
(failing with the unknown-edge-type error when it returns `nil` — the
append to `children` has already happened), and on success register the
conduit as a parent edge on `c` (`c.addParentEdge`).  Returns the updated
states of both nodes together with the outcome. -/
def addChild (n c : NodeState) : NodeState × NodeState × Except LinkError Edge :=
  if n.provides ≠ c.wants then
    (n, c, .error (.mismatch n.provides c.wants))
  else
    let n1 := { n with children := n.children ++ [c.name] }
    match newEdge n.provides with
    | none => (n1, c, .error (.unknownEdgeType n.provides))
    | some edge => (n1, { c with ins := c.ins ++ [edge] }, .ok edge)

/-- Go's `node.linkChild(c)`: `addChild`, then on success record the
bidirectional relation — `c.addParent(n)` and `n.outs = append(n.outs,
edge)`.  On failure the error is returned and the states left as
`addChild` produced them. -/
def linkChild (n c : NodeState) : NodeState × NodeState × Option LinkError :=
  match addChild n c with
  | (n1, c1, .error e) => (n1, c1, some e)
  | (n1, c1, .ok edge) =>
      ({ n1 with outs := n1.outs ++ [edge] },
       { c1 with parents := c1.parents ++ [n.name] },
       none)

/-- A node with no conduits and no relations, used for concrete inputs. -/
def bareNode (name : String) (provides wants : EdgeType) : NodeState :=
  { name := name, provides := provides, wants := wants,
    parents := [], children := [], ins := [], outs := [], stats := [] }

/-- Counterexample to claim C2 as stated: `linkChild` does not succeed for
every pair with equal declared types.  Two nodes whose declared output and
input types are equal but are a type the conduit constructor does not
recognise fail with the unknown-edge-type error, not success. -/
theorem linkChild_equal_types_can_fail :
    (bareNode "a" .unknown .stream).provides
        = (bareNode "b" .stream .unknown).wants ∧
    (linkChild (bareNode "a" .unknown .stream)
        (bareNode "b" .stream .unknown)).2.2
      = some (.unknownEdgeType .unknown) := by
  constructor
  · rfl
  · rfl

/-- Claim C2, amended: `linkChild(c)` on `n` succeeds when `n`'s declared
output stream type equals `c`'s declared input stream type and the conduit
constructor recognises that type — the fresh conduit is appended to `c`'s
input-conduit list and to `n`'s output-conduit list; when the types differ
it fails with the type-mismatch error and no conduit is created and no
state changes: both nodes are returned exactly as given. -/
theorem linkChild_spec (n c : NodeState) :
    (n.provides = c.wants →
      ∀ edge, newEdge n.provides = some edge →
        linkChild n c =
          ({ n with children := n.children ++ [c.name],
                    outs := n.outs ++ [edge] },
           { c with ins := c.ins ++ [edge],
                    parents := c.parents ++ [n.name] },
           none)) ∧
    (n.provides ≠ c.wants →
      linkChild n c = (n, c, some (.mismatch n.provides c.wants))) := by
  constructor
  · intro heq edge hedge
    rw [heq] at hedge
    unfold linkChild addChild
    simp [heq, hedge]
  · intro hne
    unfold linkChild addChild
    simp [hne]

/-- Witness for C2 (amended) at concrete inputs: a stream-to-stream pair
links successfully with the conduit recorded on both sides, and a
batch-to-stream pair fails with the mismatch error leaving both nodes
unchanged. -/
theorem linkChild_spec_witness :
    (linkChild (bareNode "a" .stream .stream) (bareNode "b" .stream .stream) =
      ({ bareNode "a" .stream .stream with
           children := ["b"],
           outs := [{ edgeType := .stream, collected := 0, emitted := 0,
                      groups := [], closed := false, aborted := false }] },
       { bareNode "b" .stream .stream with
           ins := [{ edgeType := .stream, collected := 0, emitted := 0,
                     groups := [], closed := false, aborted := false }],
           parents := ["a"] },
       none)) ∧
    (linkChild (bareNode "a" .batch .batch) (bareNode "b" .batch .stream) =
      (bareNode "a" .batch .batch, bareNode "b" .batch .stream,
       some (.mismatch .batch .stream))) := by
  have h1 := (linkChild_spec (bareNode "a" .stream .stream)
      (bareNode "b" .stream .stream)).1 (by decide)
      { edgeType := .stream, collected := 0, emitted := 0,
        groups := [], closed := false, aborted := false } (by rfl)
  have h2 := (linkChild_spec (bareNode "a" .batch .batch)
      (bareNode "b" .batch .stream)).2 (by decide)
  exact ⟨by simpa [bareNode] using h1, by simpa [bareNode] using h2⟩

/-- Claim C7: when `addChild(c)` fails because the conduit constructor
does not recognise the declared stream type (`newEdge` returns `nil`, the
unknown-edge-type error), the child `c` has already been appended to the
node's children list before the error is returned — the failure path does
not leave the node unchanged — while `c` receives no parent edge; and
after `linkChild`, for a node whose children and output-conduit lists
started with equal lengths, the children list is strictly longer than the
output-conduit list. -/
theorem addChild_unknown_edge_mutates_children (n c : NodeState)
    (heq : n.provides = c.wants) (hnil : newEdge n.provides = none) :
    addChild n c =
      ({ n with children := n.children ++ [c.name] }, c,
       .error (.unknownEdgeType n.provides)) ∧
    ((linkChild n c).2.1 = c ∧
     (n.children.length = n.outs.length →
        (linkChild n c).1.outs.length < (linkChild n c).1.children.length)) := by
  have hadd : addChild n c =
      ({ n with children := n.children ++ [c.name] }, c,
       .error (.unknownEdgeType n.provides)) := by
    have hnil2 := hnil
    rw [heq] at hnil2
    unfold addChild
    simp [heq, hnil2]
  have hlink : linkChild n c =
      ({ n with children := n.children ++ [c.name] }, c,
       some (.unknownEdgeType n.provides)) := by
    unfold linkChild
    rw [hadd]
  refine ⟨hadd, ?_, ?_⟩
  · rw [hlink]
  · intro hlen
    rw [hlink]
    simp [hlen]

/-- Witness for C7 at a concrete input: two fresh nodes agreeing on a type
the constructor rejects; after the failed link the parent records one
child but no output conduit, and the child has no input conduit. -/
theorem addChild_unknown_edge_mutates_children_witness :
    (bareNode "p" .unknown .batch).provides
        = (bareNode "q" .batch .unknown).wants ∧
    newEdge (bareNode "p" .unknown .batch).provides = none ∧
    addChild (bareNode "p" .unknown .batch) (bareNode "q" .batch .unknown) =
      ({ bareNode "p" .unknown .batch with children := ["q"] },
       bareNode "q" .batch .unknown,
       .error (.unknownEdgeType .unknown)) ∧
    (linkChild (bareNode "p" .unknown .batch)
        (bareNode "q" .batch .unknown)).1.outs.length
      < (linkChild (bareNode "p" .unknown .batch)
          (bareNode "q" .batch .unknown)).1.children.length := by
  have h := addChild_unknown_edge_mutates_children
      (bareNode "p" .unknown .batch) (bareNode "q" .batch .unknown)
      (by decide) (by rfl)
  refine ⟨by decide, by rfl, ?_, ?_⟩
  · simpa [bareNode] using h.1
  · exact h.2.2 (by rfl)

/-! ## Run-routine exit (`node.start`'s deferred cleanup)

`start` launches the run routine in a fresh goroutine:

  var err error
  defer func() {
      n.closeChildEdges()
      if err != nil {
          r := recover()
          if r != nil { err = descriptive error with bounded stack }
          n.abortParentEdges()
          n.logger.Println("E!", err)
      }
      n.errCh <- err
  }()
  err = n.runF(snapshot)

The model evaluates that deferred function for each way the run routine
can end, recording the cleanup steps in execution order. -/

/-- How the run routine ends: a normal return carrying an optional error,
or an unrecoverable runtime fault (panic) carrying the fault value. -/
inductive RunOutcome where
  | ret (e : Option String)
  | panicked (msg : String)
deriving DecidableEq, Repr

/-- The `err` variable as the deferred function sees it: the assignment
`err = n.runF(snapshot)` completes only when the run routine returns, so
after a panic `err` still holds its zero value (`nil`). -/
def errAtDefer : RunOutcome → Option String
  | .ret e => e
  | .panicked _ => none

/-- Go's `recover()` yields the fault value only while a panic is actually
unwinding; otherwise it yields `nil`. -/
def recoverResult : RunOutcome → Option String
  | .ret _ => none
  | .panicked m => some m

/-- Whether the run routine ended in a panic. -/
def RunOutcome.isPanic : RunOutcome → Bool
  | .ret _ => false
  | .panicked _ => true

/-- The stack buffer handed to `runtime.Stack` holds 512 bytes, so the
excerpt embedded in the fault error is bounded by 512. -/
def stackTraceLimit : Nat := 512

/-- The descriptive error built when a fault is recovered:
`fmt.Errorf("%s: Trace:%s", r, string(trace[:n]))` with `n ≤ 512`. -/
def faultMessage (r tr : String) : String :=
  r ++ ": Trace:" ++ tr.take stackTraceLimit

/-- Go's `node.closeChildEdges`: Close every output conduit. -/
def closeChildEdges (outs : List Edge) : List Edge :=
  outs.map fun e => { e with closed := true }

/-- One observable cleanup step of the deferred function. -/
inductive CleanupAction where
  | closeOutputs
  | abortInputs
  | logError (e : String)
  | deliver (v : Option String)
deriving DecidableEq, Repr

/-- What the deferred cleanup left behind: the output conduits after it
ran, the cleanup steps in execution order, whether `recover()` was
invoked, and whether a panic escaped the goroutine unrecovered. -/
structure RunExit where
  outs : List Edge
  actions : List CleanupAction
  recoverCalled : Bool
  panicEscaped : Bool
deriving DecidableEq, Repr

/-- The deferred function of `node.start`, evaluated on the run outcome:
close every output conduit; then, only when `err` is non-nil, call
`recover()` (replacing `err` with a descriptive fault error when it
yields a value), abort every input conduit and log `err`; finally send
`err` to the completion channel.  A panic escapes unrecovered whenever
`recover()` is never reached while a panic is unwinding. -/
def finishRun (o : RunOutcome) (outs : List Edge) (tr : String) : RunExit :=
  let outsClosed := closeChildEdges outs
  match errAtDefer o with
  | some e =>
      let r := recoverResult o
      let err1 := match r with
        | some m => faultMessage m tr
        | none => e
      { outs := outsClosed,
        actions := [.closeOutputs, .abortInputs, .logError err1, .deliver (some err1)],
        recoverCalled := true,
        panicEscaped := o.isPanic && r.isNone }
  | none =>
      { outs := outsClosed,
        actions := [.closeOutputs, .deliver none],
        recoverCalled := false,
        panicEscaped := o.isPanic }

/-- Claim C1: the wrapper installed at start is claimed to convert a panic
of the run routine into a descriptive error, Abort every input conduit,
log the error and deliver it to the completion cell.  The code does none
of this: `recover()` sits inside `if err != nil`, and when the run
routine panics `err` is still `nil`, so `recover()` is never invoked —
the panic escapes the goroutine, the inputs are not Aborted, nothing is
logged, and a nil error is delivered to the completion cell. -/
theorem runExit_panic_not_recovered :
    (finishRun (.panicked "boom") [] "goroutine 1 [running]").recoverCalled = false ∧
    (finishRun (.panicked "boom") [] "goroutine 1 [running]").panicEscaped = true ∧
    (finishRun (.panicked "boom") [] "goroutine 1 [running]").actions
      = [.closeOutputs, .deliver none] :=
  ⟨rfl, rfl, rfl⟩

/-- Claim C4: on exit of a node's run routine the cleanup steps occur in
order — (a) every output conduit is Closed, on success and on fault
alike, exactly once (a single `closeChildEdges` pass, first in the
sequence, marking every output closed); (b) only if the run ended with a
non-empty error are the input conduits Aborted and the error logged — on
successful exit the inputs are never Aborted; (c) exactly one value (the
error or none) is delivered to the completion cell. -/
theorem runExit_cleanup_order (o : RunOutcome) (outs : List Edge) (tr : String) :
    ((finishRun o outs tr).outs = closeChildEdges outs ∧
     (finishRun o outs tr).outs.length = outs.length ∧
     (∀ e, e ∈ (finishRun o outs tr).outs → e.closed = true) ∧
     (finishRun o outs tr).actions.count CleanupAction.closeOutputs = 1 ∧
     (finishRun o outs tr).actions.head? = some CleanupAction.closeOutputs) ∧
    ((CleanupAction.abortInputs ∈ (finishRun o outs tr).actions)
        ↔ (∃ e, o = RunOutcome.ret (some e))) ∧
    (∀ e, o = RunOutcome.ret (some e) →
       (finishRun o outs tr).actions
         = [CleanupAction.closeOutputs, CleanupAction.abortInputs,
            CleanupAction.logError e, CleanupAction.deliver (some e)]) ∧
    (o = RunOutcome.ret none →
       (finishRun o outs tr).actions
         = [CleanupAction.closeOutputs, CleanupAction.deliver none]) ∧
    (∀ m, o = RunOutcome.panicked m →
       (finishRun o outs tr).actions
         = [CleanupAction.closeOutputs, CleanupAction.deliver none]) ∧
    (∃ v, (finishRun o outs tr).actions.count (CleanupAction.deliver v) = 1 ∧
       ∀ w, CleanupAction.deliver w ∈ (finishRun o outs tr).actions → w = v) := by
  have houts : ∀ e, e ∈ closeChildEdges outs → e.closed = true := by
    intro e he
    unfold closeChildEdges at he
    rcases List.mem_map.mp he with ⟨a, _, rfl⟩
    rfl
  have hlen : (closeChildEdges outs).length = outs.length := by
    unfold closeChildEdges
    exact List.length_map outs _
  cases o with
  | ret e =>
      cases e with
      | none =>
          have hact : (finishRun (RunOutcome.ret none) outs tr).actions
              = [CleanupAction.closeOutputs, CleanupAction.deliver none] := rfl
          refine ⟨⟨rfl, hlen, houts, ?_, ?_⟩, ?_, ?_, ?_, ?_, ?_⟩
          · rw [hact]
            decide
          · rw [hact]
            rfl
          · rw [hact]
            simp
          · intro e2 h
            simp at h
          · intro _
            exact hact
          · intro m h
            simp at h
          · refine ⟨none, ?_, ?_⟩
            · rw [hact]
              decide
            · intro w hw
              rw [hact] at hw
              simp at hw
              exact hw
      | some e =>
          have hact : (finishRun (RunOutcome.ret (some e)) outs tr).actions
              = [CleanupAction.closeOutputs, CleanupAction.abortInputs,
                 CleanupAction.logError e, CleanupAction.deliver (some e)] := rfl
          refine ⟨⟨rfl, hlen, houts, ?_, ?_⟩, ?_, ?_, ?_, ?_, ?_⟩
          · rw [hact]
            simp [List.count_cons]
          · rw [hact]
            rfl
          · rw [hact]
            simp
          · intro e2 h
            rw [hact]
            injection h with h2
            injection h2 with h3
            rw [h3]
          · intro h
            simp at h
          · intro m h
            simp at h
          · refine ⟨some e, ?_, ?_⟩
            · rw [hact]
              simp [List.count_cons]
            · intro w hw
              rw [hact] at hw
              simp at hw
              exact hw
  | panicked m =>
      have hact : (finishRun (RunOutcome.panicked m) outs tr).actions
          = [CleanupAction.closeOutputs, CleanupAction.deliver none] := rfl
      refine ⟨⟨rfl, hlen, houts, ?_, ?_⟩, ?_, ?_, ?_, ?_, ?_⟩
      · rw [hact]
        decide
      · rw [hact]
        rfl
      · rw [hact]
        simp
      · intro e2 h
        simp at h
      · intro h
        simp at h
      · intro m2 _
        exact hact
      · refine ⟨none, ?_, ?_⟩
        · rw [hact]
          decide
        · intro w hw
          rw [hact] at hw
          simp at hw
          exact hw

/-- Witness for C4 at concrete inputs: a run routine returning the error
"eek" with one open stream output conduit produces exactly the sequence
close-outputs, abort-inputs, log, deliver, and the conduit ends closed. -/
theorem runExit_cleanup_order_witness :
    (finishRun (.ret (some "eek"))
        [{ edgeType := .stream, collected := 4, emitted := 2,
           groups := [], closed := false, aborted := false }] "t").actions
      = [CleanupAction.closeOutputs, CleanupAction.abortInputs,
         CleanupAction.logError "eek", CleanupAction.deliver (some "eek")] ∧
    (∀ e, e ∈ (finishRun (.ret (some "eek"))
        [{ edgeType := .stream, collected := 4, emitted := 2,
           groups := [], closed := false, aborted := false }] "t").outs →
      e.closed = true) := by
  have h := runExit_cleanup_order (.ret (some "eek"))
      [{ edgeType := .stream, collected := 4, emitted := 2,
         groups := [], closed := false, aborted := false }] "t"
  exact ⟨h.2.2.1 "eek" rfl, h.1.2.2.1⟩

/-! ## Completion cell (`node.Err`)

`Err` takes `finishedMu`, and under the lock the first caller reads the
one-slot completion channel and caches the value under the one-shot
`finished` flag; the lock serialises concurrent callers, so any number of
calls is a sequence of the step below. -/

/-- The result of one `Err()` call: the returned error value, or blocking
(only possible when the node has not yet terminated). -/
inductive ErrCall where
  | returns (v : Option String)
  | blocked
deriving DecidableEq, Repr

/-- The completion state of a node: the one-shot `finished` flag, the
cached `err` field, and the contents of the single-slot completion
channel (`none` once consumed or not yet filled). -/
structure ErrState where
  finished : Bool
  cached : Option String
  cell : Option (Option String)
deriving DecidableEq, Repr

/-- One `Err()` call under the lock: when `finished` is not yet set, set
it and receive from the completion channel into the cache; otherwise
return the cached value without touching the channel. -/
def nodeErr (s : ErrState) : ErrCall × ErrState :=
  if s.finished then (.returns s.cached, s)
  else
    match s.cell with
    | some v => (.returns v, { finished := true, cached := v, cell := none })
    | none => (.blocked, s)

/-- Performs `N` successive `Err()` calls (the lock serialises them), collecting
the results in order. -/
def errCalls : Nat → ErrState → List ErrCall × ErrState
  | 0, s => ([], s)
  | k + 1, s =>
      let step := nodeErr s
      let rest := errCalls k step.2
      (step.1 :: rest.1, rest.2)

theorem errCalls_finished (N : Nat) (s : ErrState) (h : s.finished = true) :
    errCalls N s = (List.replicate N (ErrCall.returns s.cached), s) := by
  induction N with
  | zero => rfl
  | succ k ih =>
      unfold errCalls
      simp [nodeErr, h, ih, List.replicate]

/-- Claim C3: on a terminated node (completion cell filled, flag clear),
`Err()` called any number `N` of times returns the identical result each
time; the first call consumes the completion channel exactly once and
sets the one-shot `finished` flag, and on any finished state a further
call returns the cached value without touching the channel or the state. -/
theorem err_idempotent (s0 : ErrState) (v : Option String) (N : Nat)
    (hf : s0.finished = false) (hc : s0.cell = some v) :
    (errCalls N s0).1 = List.replicate N (ErrCall.returns v) ∧
    nodeErr s0 = (ErrCall.returns v, { finished := true, cached := v, cell := none }) ∧
    (1 ≤ N → (errCalls N s0).2 = { finished := true, cached := v, cell := none }) ∧
    (∀ s : ErrState, s.finished = true → nodeErr s = (ErrCall.returns s.cached, s)) := by
  have hstep : nodeErr s0 =
      (ErrCall.returns v, { finished := true, cached := v, cell := none }) := by
    simp [nodeErr, hf, hc]
  have hfin : ∀ s : ErrState, s.finished = true →
      nodeErr s = (ErrCall.returns s.cached, s) := by
    intro s hs
    simp [nodeErr, hs]
  have hrest : ∀ k, errCalls k { finished := true, cached := v, cell := none }
      = (List.replicate k (ErrCall.returns v),
         { finished := true, cached := v, cell := none }) :=
    fun k => errCalls_finished k { finished := true, cached := v, cell := none } rfl
  refine ⟨?_, hstep, ?_, hfin⟩
  · cases N with
    | zero => rfl
    | succ k =>
        unfold errCalls
        simp [hstep, hrest k, List.replicate_succ]
  · intro hN
    cases N with
    | zero => cases hN
    | succ k =>
        unfold errCalls
        simp [hstep, hrest k]

/-- Witness for C3 at a concrete input: a node terminated with the error
"ohno"; three `Err()` calls all return it, and the final state has the
channel consumed and the flag set. -/
theorem err_idempotent_witness :
    (errCalls 3 { finished := false, cached := none, cell := some (some "ohno") }).1
      = List.replicate 3 (ErrCall.returns (some "ohno")) ∧
    (errCalls 3 { finished := false, cached := none, cell := some (some "ohno") }).2
      = { finished := true, cached := some "ohno", cell := none } := by
  have h := err_idempotent
      { finished := false, cached := none, cell := some (some "ohno") }
      (some "ohno") 3 rfl rfl
  exact ⟨h.1, h.2.2.1 (by decide)⟩

/-! ## `node.stop` -/

/-- The ancillary state `stop` touches: how many times the node's optional
stop routine has been invoked, whether the live-statistics handle is still
registered, and whether anything forcibly halted the run routine. -/
structure StopState where
  stopCalls : Nat
  statsRegistered : Bool
  runHalted : Bool
deriving DecidableEq, Repr

/-- Go's `node.stop()`: invoke the optional stop routine when one is set
(`hasStopF`), then deregister the live-statistics handle
(`DeleteStatistics` — modelled from the spec: section 6 `unregister(key)`
removes the registry entry, an idempotent removal).  Nothing here touches
the run routine. -/
def nodeStop (hasStopF : Bool) (s : StopState) : StopState :=
  { stopCalls := if hasStopF then s.stopCalls + 1 else s.stopCalls,
    statsRegistered := false,
    runHalted := s.runHalted }

/-- Counterexample to claim C9 as stated: `stop()` is not idempotent when
a stop routine is set — a second call invokes the stop routine again
(there is no once-guard), so calling it again does have an additional
effect beyond the first call. -/
theorem stop_second_call_has_effect :
    nodeStop true (nodeStop true { stopCalls := 0, statsRegistered := true, runHalted := false })
      ≠ nodeStop true { stopCalls := 0, statsRegistered := true, runHalted := false } ∧
    (nodeStop true (nodeStop true
        { stopCalls := 0, statsRegistered := true, runHalted := false })).stopCalls = 2 := by
  exact ⟨by decide, rfl⟩

/-- Claim C9, amended: `stop()` invokes the node's optional stop routine
when one is set and deregisters the live-statistics handle; it never
interrupts or halts the running run routine; deregistration is idempotent
and `stop` as a whole is idempotent when no stop routine is set, but when
one is set every call invokes the routine again, so `stop` is idempotent
only if the stop routine itself is. -/
theorem stop_spec (b : Bool) (s : StopState) :
    (b = true → (nodeStop b s).stopCalls = s.stopCalls + 1) ∧
    (b = false → (nodeStop b s).stopCalls = s.stopCalls) ∧
    (nodeStop b s).statsRegistered = false ∧
    (nodeStop b s).runHalted = s.runHalted ∧
    nodeStop false (nodeStop false s) = nodeStop false s ∧
    (nodeStop b (nodeStop b s)).statsRegistered = (nodeStop b s).statsRegistered := by
  refine ⟨?_, ?_, rfl, rfl, rfl, rfl⟩
  · intro hb
    simp [nodeStop, hb]
  · intro hb
    simp [nodeStop, hb]

/-- Witness for C9 (amended) at concrete inputs: with a stop routine set,
one call invokes it once, deregisters the handle and leaves the run
routine untouched; without one, `stop` is idempotent. -/
theorem stop_spec_witness :
    (nodeStop true { stopCalls := 0, statsRegistered := true, runHalted := false }).stopCalls = 1 ∧
    (nodeStop false { stopCalls := 0, statsRegistered := true, runHalted := false }).stopCalls = 0 ∧
    (nodeStop true { stopCalls := 0, statsRegistered := true, runHalted := false }).statsRegistered = false ∧
    (nodeStop true { stopCalls := 0, statsRegistered := true, runHalted := false }).runHalted = false ∧
    nodeStop false (nodeStop false { stopCalls := 0, statsRegistered := true, runHalted := false })
      = nodeStop false { stopCalls := 0, statsRegistered := true, runHalted := false } := by
  have h1 := stop_spec true { stopCalls := 0, statsRegistered := true, runHalted := false }
  have h2 := stop_spec false { stopCalls := 0, statsRegistered := true, runHalted := false }
  exact ⟨h1.1 rfl, h2.2.1 rfl, h1.2.2.1, h1.2.2.2.1, h2.2.2.2.2.1⟩

theorem MaxDuration.set_eq_max (d v : Int) : MaxDuration.set d v = max d v := by
  unfold MaxDuration.set
  rcases lt_or_ge d v with h | h
  · simp [h, max_eq_right h.le]
  · have : ¬ v > d := not_lt.mpr h
    simp [this, max_eq_left h]

theorem MaxDuration.foldl_set_eq_foldl_max (vs : List Int) (d : Int) :
    vs.foldl MaxDuration.set d = vs.foldl max d := by
  induction vs generalizing d with
  | nil => rfl
  | cons v vs ih => simp [List.foldl, MaxDuration.set_eq_max, ih]

/-- Claim C5: for the running-maximum metric `MaxDuration`, initially 0:
`Set(v)` changes the stored value only when `int64(v)` exceeds the current
value, the stored value is monotonically non-decreasing across any
sequence of `Set` calls, and after `Set(v1) .. Set(vn)` the final
`Int()` read equals `max(int64(v1), .., int64(vn), 0)`. -/
theorem maxDuration_running_max (d v : Int) (vs : List Int) :
    (v ≤ d → MaxDuration.set d v = d) ∧
    d ≤ MaxDuration.set d v ∧
    MaxDuration.int (MaxDuration.runSets vs) = vs.foldl max 0 := by
  refine ⟨fun h => ?_, ?_, ?_⟩
  · rw [MaxDuration.set_eq_max, max_eq_left h]
  · rw [MaxDuration.set_eq_max]; exact le_max_left d v
  · unfold MaxDuration.runSets MaxDuration.int
    exact MaxDuration.foldl_set_eq_foldl_max vs 0

/-- Witness for C5 at concrete inputs: `Set(3)` on a stored value of 5
leaves 5; the stored value never decreases; `Set(2); Set(7); Set(1)` from
a fresh metric ends at `7 = max(2, 7, 1, 0)`. -/
theorem maxDuration_running_max_witness :
    (3 : Int) ≤ 5 ∧
    (MaxDuration.set 5 3 = 5 ∧
     (5 : Int) ≤ MaxDuration.set 5 3 ∧
     MaxDuration.int (MaxDuration.runSets [2, 7, 1]) = [(2 : Int), 7, 1].foldl max 0) := by
  have h := maxDuration_running_max 5 3 [2, 7, 1]
  exact ⟨by decide, h.1 (by decide), h.2.1, h.2.2⟩

theorem collectedCount_foldl_shift (l : List Edge) (a : Int) :
    l.foldl (fun count i => count + i.emittedCount) a
      = a + (l.map Edge.emittedCount).sum := by
  induction l generalizing a with
  | nil => simp
  | cons e l ih => simp [List.foldl, ih, add_assoc]

/-- Claim C10: `collectedCount()` of a node equals the sum of the emitted
counts of all of the node's input conduits, and is 0 for a node with no
input conduits (a source node). -/
theorem collectedCount_sum (n : NodeState) :
    collectedCount n = (n.ins.map Edge.emittedCount).sum ∧
    (n.ins = [] → collectedCount n = 0) := by
  constructor
  · unfold collectedCount
    simpa using collectedCount_foldl_shift n.ins 0
  · intro h
    unfold collectedCount
    rw [h]
    rfl

/-! ## Per-group node statistics (`node.nodeStatsByGroup`) -/

/-- Statistics for a node, one entry per group: reportable fields, the
group's retained tags, and its dimension list (Go's `nodeStats`). -/
structure nodeStats where
  Fields : List (String × Int)
  Tags : List (String × String)
  Dimensions : List String
deriving DecidableEq, Repr

/-- Go's `node.nodeStatsByGroup`: `nil` (here `none`) when the node has no
output conduits; otherwise one entry per group that `readGroupStats` of
the FIRST output conduit reports, carrying the single field `emitted` set
to the group's collected count on that conduit (the source's comment: a
node's emitted count is the collected count of its output) together with
the group's retained tags and dimension list.  The Go map is modelled as
the association list in enumeration order. -/
def nodeStatsByGroup (n : NodeState) : Option (List (String × nodeStats)) :=
  match n.outs with
  | [] => none
  | out :: _ =>
      some (out.groups.map fun p =>
        (p.1, { Fields := [("emitted", p.2.collected)],
                Tags := p.2.tags, Dimensions := p.2.dims }))

/-- Claim C6: for every node with at least one output conduit,
`nodeStatsByGroup()` returns, for each group observed on the node's first
output conduit only, an entry whose reportable field `emitted` is the
group's emitted count — which the source defines as the group's collected
count on that first output conduit — together with that group's retained
tags and dimension list; a node with no output conduits reports nothing
via this path (`nil`), and the result never depends on the remaining
output conduits, the children, the parents or the input conduits. -/
theorem nodeStatsByGroup_spec (n : NodeState) :
    (n.outs = [] → nodeStatsByGroup n = none) ∧
    (∀ out rest, n.outs = out :: rest →
      ∃ l, nodeStatsByGroup n = some l ∧
        l.length = out.groups.length ∧
        (∀ g gi, (g, gi) ∈ out.groups →
          (g, { Fields := [("emitted", gi.collected)],
                Tags := gi.tags, Dimensions := gi.dims }) ∈ l) ∧
        (∀ rest2 children2 parents2 ins2,
          nodeStatsByGroup
              { name := n.name, provides := n.provides, wants := n.wants,
                parents := parents2, children := children2, ins := ins2,
                outs := out :: rest2, stats := n.stats }
            = some l)) := by
  constructor
  · intro h
    unfold nodeStatsByGroup
    rw [h]
  · intro out rest h
    refine ⟨out.groups.map fun p =>
        (p.1, { Fields := [("emitted", p.2.collected)],
                Tags := p.2.tags, Dimensions := p.2.dims }), ?_, ?_, ?_, ?_⟩
    · unfold nodeStatsByGroup
      rw [h]
    · exact List.length_map out.groups _
    · intro g gi hm
      exact List.mem_map.mpr ⟨(g, gi), hm, rfl⟩
    · intro rest2 children2 parents2 ins2
      rfl

/-- Witness for C6 at concrete inputs: a node whose first output conduit
carries two groups reports exactly those two entries, and a node with no
output conduits (whatever its children) reports nothing. -/
theorem nodeStatsByGroup_spec_witness :
    nodeStatsByGroup
      { bareNode "n" .stream .stream with
          children := ["c1", "c2"],
          outs := [{ edgeType := .stream, collected := 5, emitted := 4,
                     groups := [("g1", { collected := 3, emitted := 2,
                                         tags := [("host", "a")], dims := ["host"] }),
                                ("g2", { collected := 2, emitted := 2,
                                         tags := [("host", "b")], dims := ["host"] })],
                     closed := false, aborted := false },
                   { edgeType := .stream, collected := 9, emitted := 9,
                     groups := [], closed := false, aborted := false }] }
      = some [("g1", { Fields := [("emitted", 3)],
                       Tags := [("host", "a")], Dimensions := ["host"] }),
              ("g2", { Fields := [("emitted", 2)],
                       Tags := [("host", "b")], Dimensions := ["host"] })] ∧
    nodeStatsByGroup { bareNode "m" .stream .stream with children := ["c1"] } = none := by
  constructor
  · rfl
  · exact (nodeStatsByGroup_spec
      { bareNode "m" .stream .stream with children := ["c1"] }).1 rfl

/-! ## DOT export (`node.edot`)

Small string lemmas first: `++` on strings is associative, the empty
string is a right unit, and `String.join` distributes over cons; they let
the buffer-write sequence of `edot` be summed into one concatenation. -/

theorem strAppend_assoc (a b c : String) : a ++ b ++ c = a ++ (b ++ c) := by
  apply String.ext
  simp [List.append_assoc]

theorem strAppend_empty (s : String) : s ++ "" = s := by
  apply String.ext
  simp

theorem strJoin_nil : String.join [] = "" := rfl

theorem strJoin_cons (s : String) (l : List String) :
    String.join (s :: l) = s ++ String.join l := by
  apply String.ext
  simp [String.join_eq]

/-- A left fold appending `f a` for each element equals the starting
buffer followed by the joined rendered pieces. -/
theorem foldl_strAppend {α : Type} (f : α → String) (l : List α) (b : String) :
    l.foldl (fun acc a => acc ++ f a) b = b ++ String.join (l.map f) := by
  induction l generalizing b with
  | nil => simp [strJoin_nil, strAppend_empty]
  | cons a l ih =>
      simp only [List.foldl, List.map, strJoin_cons]
      rw [ih, strAppend_assoc]

/-- The per-child loop of `edot`: `for i, c := range n.children` writes
one edge line built from child `c` and conduit `n.outs[i]`; when the
output list is shorter than the children list the Go indexing would be an
out-of-range runtime fault, modelled as `none`. -/
def edotEdges (mk : String → Edge → String) :
    List String → List Edge → String → Option String
  | [], _, buf => some buf
  | _ :: _, [], _ => none
  | c :: cs, o :: os, buf => edotEdges mk cs os (buf ++ mk c o)

theorem edotEdges_eq (mk : String → Edge → String) (cs : List String)
    (os : List Edge) (buf : String) (h : cs.length ≤ os.length) :
    edotEdges mk cs os buf
      = some (buf ++ String.join ((cs.zip os).map fun p => mk p.1 p.2)) := by
  induction cs generalizing os buf with
  | nil => simp [edotEdges, strJoin_nil, strAppend_empty]
  | cons c cs ih =>
      cases os with
      | nil => simp at h
      | cons o os =>
          have h2 : cs.length ≤ os.length := by
            simpa using Nat.le_of_succ_le_succ h
          simp only [edotEdges, List.zip_cons_cons, List.map, strJoin_cons]
          rw [ih os (buf ++ mk c o) h2, strAppend_assoc]
          rfl

/-- Go's `node.edot(buf, labels)`: append the node declaration — in
labels mode `\n<name> [label="<name> ` then `key=value ` for every live
statistic then `"];\n`, otherwise `\n<name> [` then `key="value" ` for
every live statistic then `];\n` — and then, per child `i`, one edge
declaration carrying `n.outs[i].collectedCount()`: in labels mode
`<name> -> <child> [label="<count>"];\n`, otherwise
`<name> -> <child> [processed="<count>"];\n`.  The statistics map is
modelled as the key/value list in iteration order. -/
def edot (n : NodeState) (labels : Bool) : Option String :=
  match labels with
  | true =>
      edotEdges
        (fun c o => n.name ++ " -> " ++ c ++ " [label=\"" ++ toString o.collectedCount ++ "\"];\n")
        n.children n.outs
        ((n.stats.foldl (fun acc kv => acc ++ (kv.1 ++ "=" ++ kv.2 ++ " "))
            ("\n" ++ n.name ++ " [label=\"" ++ n.name ++ " ")) ++ "\"];\n")
  | false =>
      edotEdges
        (fun c o => n.name ++ " -> " ++ c ++ " [processed=\"" ++ toString o.collectedCount ++ "\"];\n")
        n.children n.outs
        ((n.stats.foldl (fun acc kv => acc ++ (kv.1 ++ "=\"" ++ kv.2 ++ "\" "))
            ("\n" ++ n.name ++ " [")) ++ "];\n")

/-- Stated from the claim's words: one declaration for the node carrying
every key/value pair of its live statistics map — with `labels = true`
the stats embedded in a label attribute, with `labels = false` each stat
a separate quoted attribute. -/
def nodeDeclSpec (labels : Bool) (name : String) (stats : List (String × String)) : String :=
  match labels with
  | true =>
      "\n" ++ name ++ " [label=\"" ++ name ++ " "
        ++ String.join (stats.map fun kv => kv.1 ++ "=" ++ kv.2 ++ " ") ++ "\"];\n"
  | false =>
      "\n" ++ name ++ " ["
        ++ String.join (stats.map fun kv => kv.1 ++ "=\"" ++ kv.2 ++ "\" ") ++ "];\n"

/-- Stated from the claim's words: one edge declaration per direct child,
annotated with the connecting conduit's collected record count — embedded
in a label attribute with `labels = true`, as a `processed` attribute
with `labels = false`. -/
def edgeDeclSpec (labels : Bool) (name child : String) (count : Int) : String :=
  match labels with
  | true => name ++ " -> " ++ child ++ " [label=\"" ++ toString count ++ "\"];\n"
  | false => name ++ " -> " ++ child ++ " [processed=\"" ++ toString count ++ "\"];\n"

/-- Stated from the claim's words: the full fragment — the node
declaration followed by one edge declaration per direct child paired with
its connecting conduit. -/
def renderSpec (n : NodeState) (labels : Bool) : String :=
  nodeDeclSpec labels n.name n.stats
    ++ String.join ((n.children.zip n.outs).map
        fun p => edgeDeclSpec labels n.name p.1 p.2.collectedCount)

/-- Claim C8: for every node (whose output-conduit list covers its
children, as `linkChild` guarantees), `edot(buf, labels)` appends exactly
the fragment the claim describes: one declaration for the node carrying
every key/value pair of its live statistics map, followed by one edge
declaration per direct child annotated with the connecting conduit's
collected record count; with `labels = true` the stats and the per-edge
count are embedded in label attributes, with `labels = false` each stat
is a separate quoted attribute and the per-edge count appears as a
`processed` attribute. -/
theorem edot_renders_spec (n : NodeState) (labels : Bool)
    (h : n.children.length ≤ n.outs.length) :
    edot n labels = some (renderSpec n labels) := by
  cases labels with
  | true =>
      unfold edot renderSpec nodeDeclSpec edgeDeclSpec
      dsimp only
      rw [edotEdges_eq _ _ _ _ h, foldl_strAppend]
  | false =>
      unfold edot renderSpec nodeDeclSpec edgeDeclSpec
      dsimp only
      rw [edotEdges_eq _ _ _ _ h, foldl_strAppend]

/-- Witness for C8 at a concrete input: a node named A with one statistic
and one child renders, in both modes, exactly the expected fragment. -/
theorem edot_renders_spec_witness :
    edot
      { bareNode "A" .stream .stream with
          children := ["B"],
          outs := [{ edgeType := .stream, collected := 7, emitted := 6,
                     groups := [], closed := false, aborted := false }],
          stats := [("x", "1")] } true
      = some ("\nA [label=\"A x=1 \"];\nA -> B [label=\"7\"];\n") ∧
    edot
      { bareNode "A" .stream .stream with
          children := ["B"],
          outs := [{ edgeType := .stream, collected := 7, emitted := 6,
                     groups := [], closed := false, aborted := false }],
          stats := [("x", "1")] } false
      = some ("\nA [x=\"1\" ];\nA -> B [processed=\"7\"];\n") := by
  have h1 := edot_renders_spec
      { bareNode "A" .stream .stream with
          children := ["B"],
          outs := [{ edgeType := .stream, collected := 7, emitted := 6,
                     groups := [], closed := false, aborted := false }],
          stats := [("x", "1")] } true (by decide)
  have h2 := edot_renders_spec
      { bareNode "A" .stream .stream with
          children := ["B"],
          outs := [{ edgeType := .stream, collected := 7, emitted := 6,
                     groups := [], closed := false, aborted := false }],
          stats := [("x", "1")] } false (by decide)
  constructor
  · rw [h1]
    rfl
  · rw [h2]
    rfl

/-- Witness for C10 at a concrete input: a node with two input conduits
that emitted 3 and 4 records has collected count 7, and a source node
with no inputs has collected count 0. -/
theorem collectedCount_sum_witness :
    collectedCount
      { bareNode "s" .stream .stream with
          ins := [{ edgeType := .stream, collected := 5, emitted := 3,
                    groups := [], closed := false, aborted := false },
                  { edgeType := .stream, collected := 4, emitted := 4,
                    groups := [], closed := false, aborted := false }] }
      = ([(3 : Int), 4].sum) ∧
    collectedCount (bareNode "src" .stream .stream) = 0 := by
  have h1 := collectedCount_sum
      { bareNode "s" .stream .stream with
          ins := [{ edgeType := .stream, collected := 5, emitted := 3,
                    groups := [], closed := false, aborted := false },
                  { edgeType := .stream, collected := 4, emitted := 4,
                    groups := [], closed := false, aborted := false }] }
  have h2 := collectedCount_sum (bareNode "src" .stream .stream)
  exact ⟨h1.1, h2.2 rfl⟩
